import Mathlib

/-
Shallow embedding of the ucpg_api payment core.

Python `Decimal` values appear in two regimes.  Escrow balances and
commission rates are stored DecimalField values of widths (20,8) and (5,4);
the additions, subtractions and comparisons performed on them stay far below
the 28-significant-digit default `Decimal` context precision, are exact, and
are modelled as exact rationals (ℚ).  The commission calculation, however,
multiplies an in-memory converted amount that can carry a full 28-digit
coefficient, where the context rounds: it is modelled by explicit
coefficient/exponent `Decimal` arithmetic with 28-digit half-even context
rounding (the `Dec` machinery below).  Timestamps are modelled as integers
(seconds).  Django rows are
modelled as immutable records; `save()` is modelled as returning the updated
record, and a query-set `filter(...).first()` as `List.find?` over the table
in storage order (the relevant tables carry a uniqueness constraint on the
filtered columns, so at most one row matches and the order is immaterial).
-/

namespace UCPG

/-! ### Escrow ledger — `EscrowAccount` (src/apps/payments/models.py)
and the deposit performed by `StripePaymentService._move_to_escrow`
(src/apps/payments/services/stripe_service.py). -/

structure EscrowAccount where
  total_balance : ℚ
  available_balance : ℚ
  reserved_balance : ℚ
deriving DecidableEq, Repr

/-- `EscrowAccount.reserve_funds`: move `amount` from available to reserved
when `available_balance >= amount`, else return `False` and leave the row
untouched. -/
def reserve_funds (a : EscrowAccount) (amount : ℚ) : Bool × EscrowAccount :=
  if a.available_balance ≥ amount then
    (true, { a with
      available_balance := a.available_balance - amount
      reserved_balance := a.reserved_balance + amount })
  else
    (false, a)

/-- `EscrowAccount.release_funds`: funds leave escrow permanently; decrements
both `reserved_balance` and `total_balance` when `reserved_balance >= amount`. -/
def release_funds (a : EscrowAccount) (amount : ℚ) : Bool × EscrowAccount :=
  if a.reserved_balance ≥ amount then
    (true, { a with
      reserved_balance := a.reserved_balance - amount
      total_balance := a.total_balance - amount })
  else
    (false, a)

/-- `EscrowAccount.return_funds`: move `amount` back from reserved to
available when `reserved_balance >= amount`. -/
def return_funds (a : EscrowAccount) (amount : ℚ) : Bool × EscrowAccount :=
  if a.reserved_balance ≥ amount then
    (true, { a with
      reserved_balance := a.reserved_balance - amount
      available_balance := a.available_balance + amount })
  else
    (false, a)

/-- The deposit step of `StripePaymentService._move_to_escrow` (lines
325–327): `total_balance += net_amount; available_balance += net_amount`,
unconditionally. -/
def move_to_escrow_deposit (a : EscrowAccount) (amount : ℚ) : EscrowAccount :=
  { a with
    total_balance := a.total_balance + amount
    available_balance := a.available_balance + amount }

/-- One escrow-ledger operation together with its amount. -/
inductive EscrowOp where
  | reserve (amount : ℚ)
  | release (amount : ℚ)
  | ret (amount : ℚ)
  | deposit (amount : ℚ)
deriving DecidableEq, Repr

def EscrowOp.amount : EscrowOp → ℚ
  | .reserve q => q
  | .release q => q
  | .ret q => q
  | .deposit q => q

/-- Apply one operation to an account; a guard failure leaves the row as the
source does (the method returns `False` without saving). -/
def apply_escrow_op (a : EscrowAccount) (op : EscrowOp) : EscrowAccount :=
  match op with
  | .reserve q => (reserve_funds a q).2
  | .release q => (release_funds a q).2
  | .ret q => (return_funds a q).2
  | .deposit q => move_to_escrow_deposit a q

def apply_escrow_ops (a : EscrowAccount) (ops : List EscrowOp) : EscrowAccount :=
  ops.foldl apply_escrow_op a

/-- The escrow balance invariant:
`total_balance = available_balance + reserved_balance` with all three
balances non-negative. -/
def escrow_inv (a : EscrowAccount) : Prop :=
  a.total_balance = a.available_balance + a.reserved_balance ∧
  0 ≤ a.total_balance ∧ 0 ≤ a.available_balance ∧ 0 ≤ a.reserved_balance

instance (a : EscrowAccount) : Decidable (escrow_inv a) := by
  unfold escrow_inv; infer_instance

lemma apply_escrow_op_inv (a : EscrowAccount) (op : EscrowOp)
    (hq : 0 ≤ op.amount) (h : escrow_inv a) : escrow_inv (apply_escrow_op a op) := by
  obtain ⟨hsum, ht, ha, hr⟩ := h
  cases op with
  | reserve q =>
    simp only [apply_escrow_op, reserve_funds, EscrowOp.amount] at *
    split
    · exact ⟨by simp; linarith, by simp; linarith, by simp; linarith, by simp; linarith⟩
    · exact ⟨hsum, ht, ha, hr⟩
  | release q =>
    simp only [apply_escrow_op, release_funds, EscrowOp.amount] at *
    split
    · exact ⟨by simp; linarith, by simp; linarith, by simp; linarith, by simp; linarith⟩
    · exact ⟨hsum, ht, ha, hr⟩
  | ret q =>
    simp only [apply_escrow_op, return_funds, EscrowOp.amount] at *
    split
    · exact ⟨by simp; linarith, by simp; linarith, by simp; linarith, by simp; linarith⟩
    · exact ⟨hsum, ht, ha, hr⟩
  | deposit q =>
    simp only [apply_escrow_op, move_to_escrow_deposit, EscrowOp.amount] at *
    exact ⟨by simp; linarith, by simp; linarith, by simp; linarith, hr⟩

/-- C2: starting from a state satisfying the escrow invariant, any sequence of
reserve / release / return / deposit operations with non-negative amounts
preserves `total_balance = available_balance + reserved_balance` and keeps all
three balances non-negative. -/
theorem escrow_invariant_preserved (ops : List EscrowOp) (a : EscrowAccount)
    (hops : ∀ op ∈ ops, 0 ≤ op.amount) (h : escrow_inv a) :
    escrow_inv (apply_escrow_ops a ops) := by
  induction ops generalizing a with
  | nil => exact h
  | cons op rest ih =>
    have h1 : 0 ≤ op.amount := hops op (by simp)
    have h2 : ∀ o ∈ rest, 0 ≤ o.amount := fun o ho => hops o (by simp [ho])
    exact ih (apply_escrow_op a op) h2 (apply_escrow_op_inv a op h1 h)

/-- Witness for C2 at a concrete account and operation sequence. -/
theorem escrow_invariant_preserved_witness :
    escrow_inv (apply_escrow_ops ⟨50, 50, 0⟩
      [.deposit 10, .reserve 30, .release 5, .ret 25, .reserve 100]) :=
  escrow_invariant_preserved
    [.deposit 10, .reserve 30, .release 5, .ret 25, .reserve 100]
    ⟨50, 50, 0⟩
    (by rintro op hop; fin_cases hop <;> norm_num [EscrowOp.amount])
    (by norm_num [escrow_inv])

/-- C8: `reserve_funds` moves exactly `amount` from available to reserved when
`available_balance ≥ amount`, and otherwise fails (returns `false`, the
source's signal for insufficient funds) leaving the account unchanged. -/
theorem reserve_funds_spec (a : EscrowAccount) (amount : ℚ) :
    (amount ≤ a.available_balance →
      reserve_funds a amount =
        (true, ⟨a.total_balance, a.available_balance - amount,
                a.reserved_balance + amount⟩)) ∧
    (a.available_balance < amount →
      reserve_funds a amount = (false, a)) := by
  constructor
  · intro h
    simp only [reserve_funds, ge_iff_le, h, if_true]
  · intro h
    simp only [reserve_funds, ge_iff_le]
    rw [if_neg (by exact not_le.mpr h)]

/-- Witness for C8: the spec scenario `EscrowAccount(available=50, reserved=0)`;
`reserve(30)` gives (available=20, reserved=30) and a second `reserve(30)`
fails leaving the account unchanged. -/
theorem reserve_funds_spec_witness :
    reserve_funds ⟨50, 50, 0⟩ 30 = (true, ⟨50, 20, 30⟩) ∧
    reserve_funds ⟨50, 20, 30⟩ 30 = (false, ⟨50, 20, 30⟩) := by
  constructor
  · have h := (reserve_funds_spec ⟨50, 50, 0⟩ 30).1 (by norm_num)
    norm_num at h ⊢
    exact h
  · exact (reserve_funds_spec ⟨50, 20, 30⟩ 30).2 (by norm_num)

/-! ### Commission service (src/apps/payments/services/commission_service.py)
against `CommissionSetting`, `Currency` (src/apps/payments/models.py) and
`Provider` (src/apps/providers/models.py). -/

/-- `providers.Provider`, restricted to the fields the commission resolution
reads: `commission_rate` (a non-nullable DecimalField) and `is_active`. -/
structure Provider where
  commission_rate : ℚ
  is_active : Bool
deriving DecidableEq, Repr

/-- `payments.CommissionSetting`: nullable `currency` / `provider` foreign keys
(modelled by their codes / ids), `rate`, `is_active`, `is_global`. -/
structure CommissionSetting where
  currency : Option String
  provider : Option String
  rate : ℚ
  is_active : Bool
  is_global : Bool
deriving DecidableEq, Repr

/-- The rows the resolver queries: providers keyed by id, and the commission
settings table. -/
structure CommissionDB where
  providers : List (String × Provider)
  settings : List CommissionSetting
deriving Repr

/-- `Provider.objects.get(id=provider_id, is_active=True)`; `DoesNotExist` is
caught in the source and yields `provider = None`. -/
def lookup_active_provider (db : CommissionDB) (pid : String) : Option Provider :=
  (db.providers.find? (fun p => p.1 == pid && p.2.is_active)).map (·.2)

/-- `CommissionSetting.objects.filter(provider=provider, currency=currency,
is_active=True).first()`. -/
def find_provider_currency_setting (db : CommissionDB) (pid cur : String) :
    Option CommissionSetting :=
  db.settings.find? (fun s =>
    s.provider == some pid && s.currency == some cur && s.is_active)

/-- `CommissionSetting.objects.filter(provider=provider,
currency__isnull=True, is_active=True).first()`. -/
def find_provider_setting (db : CommissionDB) (pid : String) :
    Option CommissionSetting :=
  db.settings.find? (fun s =>
    s.provider == some pid && s.currency == none && s.is_active)

/-- `CommissionSetting.objects.filter(currency=currency, provider__isnull=True,
is_active=True).first()`. -/
def find_currency_setting (db : CommissionDB) (cur : String) :
    Option CommissionSetting :=
  db.settings.find? (fun s =>
    s.currency == some cur && s.provider == none && s.is_active)

/-- `CommissionSetting.objects.filter(is_global=True, is_active=True).first()`. -/
def find_global_setting (db : CommissionDB) : Option CommissionSetting :=
  db.settings.find? (fun s => s.is_global && s.is_active)

/-- The tail of `CommissionService._get_commission_rate` reached on every path
that found no provider-level rate: currency-specific setting, then global
setting, then the configured default rate. -/
def currency_or_global_rate (db : CommissionDB) (default_rate : ℚ)
    (cur : String) : ℚ :=
  match find_currency_setting db cur with
  | some s => s.rate
  | none =>
    match find_global_setting db with
    | some s => s.rate
    | none => default_rate

/-- `CommissionService._get_commission_rate(currency, provider_id)`.
`default_rate` is `settings.UCPG_SETTINGS['DEFAULT_COMMISSION_RATE']` (read in
the constructor).  Note the source guards the provider's own default rate with
Python truthiness (`if provider.commission_rate:`), so a zero rate falls
through to the currency-level lookup. -/
def get_commission_rate (db : CommissionDB) (default_rate : ℚ) (cur : String)
    (provider_id : Option String) : ℚ :=
  match provider_id with
  | none => currency_or_global_rate db default_rate cur
  | some pid =>
    match lookup_active_provider db pid with
    | none => currency_or_global_rate db default_rate cur
    | some p =>
      match find_provider_currency_setting db pid cur with
      | some s => s.rate
      | none =>
        match find_provider_setting db pid with
        | some s => s.rate
        | none =>
          if p.commission_rate ≠ 0 then p.commission_rate
          else currency_or_global_rate db default_rate cur

/-! #### Python `Decimal` arithmetic for the commission calculation

`calculate_commission` runs on in-memory `Decimal` values under CPython's
default context: 28 significant digits, `ROUND_HALF_EVEN`.  The converted
amount it receives comes straight from the exchange conversion
(`exchange_service.convert_currency`), which can produce a full 28-digit
coefficient — e.g. through the reciprocal-rate path dividing by a stored
rate — so the context rounding is reachable and is modelled.  A `Decimal` is
a coefficient/exponent pair exactly as in CPython; an operation computes the
exact coefficient and, when it exceeds 28 digits, rounds it half-even to 28
digits.  (CPython renormalizes an all-nines carry `10^28 → 10^27` with a
bumped exponent; representations can then differ from this model's by
trailing-zero padding of the coefficient, which changes no value and no later
rounding result, so all values agree with CPython's.) -/

/-- Decimal digit count of a natural number (`0` has one digit).  The fuel
bounds the recursion; 100 covers every coefficient arising in this
development, all far below `10^100`. -/
def numDigitsFuel : ℕ → ℕ → ℕ
  | 0, _ => 1
  | fuel + 1, n => if n < 10 then 1 else numDigitsFuel fuel (n / 10) + 1

def numDigits (n : ℕ) : ℕ := numDigitsFuel 100 n

/-- Round `n / 10 ^ k` to the nearest natural number, ties to even
(`ROUND_HALF_EVEN`). -/
def roundHalfEvenNat (n k : ℕ) : ℕ :=
  let p := 10 ^ k
  let q := n / p
  let r := n % p
  if 2 * r < p then q
  else if p < 2 * r then q + 1
  else if q % 2 = 0 then q else q + 1

/-- `ROUND_HALF_EVEN` on a signed coefficient (rounding acts on the
magnitude). -/
def roundHalfEvenInt (m : ℤ) (k : ℕ) : ℤ :=
  if 0 ≤ m then (roundHalfEvenNat m.toNat k : ℤ)
  else -(roundHalfEvenNat (-m).toNat k : ℤ)

/-- A CPython `Decimal`: coefficient `m` and exponent `e`, for the value
`m * 10 ^ e`. -/
structure Dec where
  m : ℤ
  e : ℤ
deriving DecidableEq, Repr

/-- The rational value of a `Decimal`. -/
def Dec.val (d : Dec) : ℚ := (d.m : ℚ) * (10 : ℚ) ^ d.e

/-- Context rounding: a coefficient longer than the context's 28 significant
digits is rounded half-even to 28 digits. -/
def decRound (d : Dec) : Dec :=
  if numDigits d.m.natAbs ≤ 28 then d
  else
    ⟨roundHalfEvenInt d.m (numDigits d.m.natAbs - 28),
     d.e + (numDigits d.m.natAbs - 28)⟩

/-- `Decimal` multiplication: exact coefficient product, then context
rounding. -/
def dec_mul (a b : Dec) : Dec :=
  decRound ⟨a.m * b.m, a.e + b.e⟩

/-- `Decimal` subtraction: exact difference at the smaller exponent, then
context rounding. -/
def dec_sub (a b : Dec) : Dec :=
  decRound
    ⟨a.m * 10 ^ (a.e - min a.e b.e).toNat -
       b.m * 10 ^ (b.e - min a.e b.e).toNat,
     min a.e b.e⟩

/-- `CommissionService.calculate_commission`:
`commission_amount = amount * commission_rate` and
`net_amount = amount - commission_amount`, both under the default `Decimal`
context; no quantize / currency-precision rounding appears in the source. -/
def calculate_commission (amount rate : Dec) : Dec × Dec :=
  (dec_mul amount rate, dec_sub amount (dec_mul amount rate))

lemma numDigitsFuel_le (d : ℕ) :
    ∀ f n : ℕ, d ≤ f → 1 ≤ d → n < 10 ^ d → numDigitsFuel f n ≤ d := by
  induction d with
  | zero => intro f n _ h1 _; omega
  | succ d ih =>
    intro f n hdf h1 hn
    obtain ⟨g, rfl⟩ : ∃ g, f = g + 1 := ⟨f - 1, by omega⟩
    simp only [numDigitsFuel]
    split
    · omega
    · rename_i h10
      have hd1 : 1 ≤ d := by
        rcases Nat.eq_zero_or_pos d with h | h
        · subst h
          norm_num at hn
          omega
        · exact h
      have hn' : n / 10 < 10 ^ d := by
        rw [Nat.div_lt_iff_lt_mul (by norm_num)]
        calc n < 10 ^ (d + 1) := hn
          _ = 10 ^ d * 10 := by ring
      have := ih g (n / 10) (by omega) hd1 hn'
      omega

lemma decRound_eq_self (d : Dec) (h : d.m.natAbs < 10 ^ 28) : decRound d = d := by
  have h28 : numDigits d.m.natAbs ≤ 28 :=
    numDigitsFuel_le 28 100 d.m.natAbs (by norm_num) (by norm_num) h
  unfold decRound
  rw [if_pos h28]

lemma dec_mul_val (a b : Dec) (h : (a.m * b.m).natAbs < 10 ^ 28) :
    (dec_mul a b).val = a.val * b.val := by
  unfold dec_mul
  rw [decRound_eq_self ⟨a.m * b.m, a.e + b.e⟩ h]
  simp only [Dec.val]
  rw [zpow_add₀ (by norm_num : (10 : ℚ) ≠ 0)]
  push_cast
  ring

lemma dec_sub_val (a b : Dec)
    (h : (a.m * 10 ^ (a.e - min a.e b.e).toNat -
          b.m * 10 ^ (b.e - min a.e b.e).toNat).natAbs < 10 ^ 28) :
    (dec_sub a b).val = a.val - b.val := by
  unfold dec_sub
  rw [decRound_eq_self _ h]
  simp only [Dec.val]
  have h10 : (10 : ℚ) ≠ 0 := by norm_num
  have ha : ((a.e - min a.e b.e).toNat : ℤ) = a.e - min a.e b.e :=
    Int.toNat_of_nonneg (sub_nonneg.mpr (min_le_left a.e b.e))
  have hb : ((b.e - min a.e b.e).toNat : ℤ) = b.e - min a.e b.e :=
    Int.toNat_of_nonneg (sub_nonneg.mpr (min_le_right a.e b.e))
  have ea : a.e - min a.e b.e + min a.e b.e = a.e := by ring
  have eb : b.e - min a.e b.e + min a.e b.e = b.e := by ring
  push_cast
  rw [← zpow_natCast (10 : ℚ) (a.e - min a.e b.e).toNat,
      ← zpow_natCast (10 : ℚ) (b.e - min a.e b.e).toNat, ha, hb,
      sub_mul, mul_assoc, mul_assoc, ← zpow_add₀ h10, ← zpow_add₀ h10, ea, eb]

/-- `payments.Currency`, restricted to the precision metadata. -/
structure Currency where
  code : String
  decimal_places : ℕ
deriving DecidableEq, Repr

/-- A rational is representable at `dp` decimal places. -/
def rounded_to_places (dp : ℕ) (q : ℚ) : Prop :=
  ∃ n : ℤ, q = (n : ℚ) / (10 : ℚ) ^ dp

/-- Modelled from the spec: the commission-rate waterfall exactly as the claim
states it, where precedence level 3 is "the provider's own default rate
field" with no further condition. -/
def spec_resolve_rate (db : CommissionDB) (default_rate : ℚ) (cur : String)
    (provider_id : Option String) : ℚ :=
  match provider_id with
  | none => currency_or_global_rate db default_rate cur
  | some pid =>
    match lookup_active_provider db pid with
    | none => currency_or_global_rate db default_rate cur
    | some p =>
      match find_provider_currency_setting db pid cur with
      | some s => s.rate
      | none =>
        match find_provider_setting db pid with
        | some s => s.rate
        | none => p.commission_rate

/-- Counterexample to C4: for the 28-significant-digit converted amount
4365.353132424537229590385577 (reachable from the conversion path) at rate
0.0555, both the product and the subtraction round in the 28-digit context
and `commission_amount + net_amount` differs from the converted amount by
5·10⁻²⁵ — CPython's own `Decimal` arithmetic returns these very coefficients
and its comparison shows the same inequality. -/
theorem commission_context_drift_cx :
    calculate_commission ⟨4365353132424537229590385577, -24⟩ ⟨555, -4⟩ =
      (⟨2422770988495618162422663995, -25⟩,
       ⟨4123076033574975413348119178, -24⟩) ∧
    (⟨2422770988495618162422663995, -25⟩ : Dec).val +
      (⟨4123076033574975413348119178, -24⟩ : Dec).val ≠
      (⟨4365353132424537229590385577, -24⟩ : Dec).val := by
  constructor
  · decide
  · norm_num [Dec.val]

/-- C4 (amended): when the converted amount fits the `Transaction` storage
width `DecimalField(20, 8)` and the rate its `DecimalField(5, 4)` width, the
28-digit context never rounds and
`commission_amount + net_amount = converted_amount` holds exactly; for
in-memory converted amounts carrying the context's full 28 significant digits
the identity can fail with rounding drift. -/
theorem commission_sum_exact_within_context (a r : Dec)
    (hae : a.e = -8) (ham : a.m.natAbs < 10 ^ 20)
    (hre : r.e = -4) (hrm : r.m.natAbs < 10 ^ 5) :
    (calculate_commission a r).1.val + (calculate_commission a r).2.val =
      a.val := by
  obtain ⟨am, ae⟩ := a
  obtain ⟨rm, re⟩ := r
  replace hae : ae = -8 := hae
  replace hre : re = -4 := hre
  replace ham : am.natAbs < 10 ^ 20 := ham
  replace hrm : rm.natAbs < 10 ^ 5 := hrm
  subst hae
  subst hre
  have hmul : (am * rm).natAbs < 10 ^ 28 := by
    rw [Int.natAbs_mul]
    calc am.natAbs * rm.natAbs < 10 ^ 20 * 10 ^ 5 :=
          mul_lt_mul'' ham hrm (Nat.zero_le _) (Nat.zero_le _)
      _ ≤ 10 ^ 28 := by norm_num
  have hc : dec_mul ⟨am, -8⟩ ⟨rm, -4⟩ = ⟨am * rm, -12⟩ := by
    show decRound ⟨am * rm, -8 + -4⟩ = ⟨am * rm, -12⟩
    rw [decRound_eq_self ⟨am * rm, -8 + -4⟩ hmul]
    norm_num
  have hb : (am * 10 ^ 4 - am * rm).natAbs < 10 ^ 28 := by
    have h1 : (am * 10 ^ 4).natAbs < 10 ^ 24 := by
      rw [Int.natAbs_mul, Int.natAbs_pow]
      calc am.natAbs * (10 : ℤ).natAbs ^ 4 = am.natAbs * 10 ^ 4 := by norm_num
        _ < 10 ^ 20 * 10 ^ 4 :=
          (Nat.mul_lt_mul_right (by norm_num)).mpr ham
        _ ≤ 10 ^ 24 := by norm_num
    have h2 : (am * rm).natAbs < 10 ^ 25 := by
      rw [Int.natAbs_mul]
      calc am.natAbs * rm.natAbs < 10 ^ 20 * 10 ^ 5 :=
            mul_lt_mul'' ham hrm (Nat.zero_le _) (Nat.zero_le _)
        _ ≤ 10 ^ 25 := by norm_num
    calc (am * 10 ^ 4 - am * rm).natAbs
        ≤ (am * 10 ^ 4).natAbs + (am * rm).natAbs := Int.natAbs_sub_le _ _
      _ < 10 ^ 24 + 10 ^ 25 := Nat.add_lt_add h1 h2
      _ ≤ 10 ^ 28 := by norm_num
  have hmin : min (-8 : ℤ) (-12 : ℤ) = -12 := by decide
  have h4 : ((-8 : ℤ) - (-12 : ℤ)).toNat = 4 := by decide
  have h0 : ((-12 : ℤ) - (-12 : ℤ)).toNat = 0 := by decide
  have hs : dec_sub ⟨am, -8⟩ ⟨am * rm, -12⟩ = ⟨am * 10 ^ 4 - am * rm, -12⟩ := by
    show decRound ⟨am * 10 ^ ((-8 : ℤ) - min (-8 : ℤ) (-12 : ℤ)).toNat -
        (am * rm) * 10 ^ ((-12 : ℤ) - min (-8 : ℤ) (-12 : ℤ)).toNat,
        min (-8 : ℤ) (-12 : ℤ)⟩ = ⟨am * 10 ^ 4 - am * rm, -12⟩
    rw [hmin, h4, h0, pow_zero, mul_one]
    exact decRound_eq_self ⟨am * 10 ^ 4 - am * rm, -12⟩ hb
  have hcalc : calculate_commission ⟨am, -8⟩ ⟨rm, -4⟩ =
      (⟨am * rm, -12⟩, ⟨am * 10 ^ 4 - am * rm, -12⟩) := by
    unfold calculate_commission
    rw [hc, hs]
  rw [hcalc]
  simp only [Dec.val]
  have key : (10 : ℚ) ^ (4 : ℕ) * (10 : ℚ) ^ (-12 : ℤ) = (10 : ℚ) ^ (-8 : ℤ) := by
    rw [← zpow_natCast (10 : ℚ) 4, ← zpow_add₀ (by norm_num : (10 : ℚ) ≠ 0)]
    norm_num
  push_cast
  linear_combination (am : ℚ) * key

/-- Witness for C4 at a storage-width amount and rate:
10000.00000000 at rate 0.0500. -/
theorem commission_sum_exact_within_context_witness :
    (calculate_commission ⟨1000000000000, -8⟩ ⟨500, -4⟩).1.val +
      (calculate_commission ⟨1000000000000, -8⟩ ⟨500, -4⟩).2.val =
      (⟨1000000000000, -8⟩ : Dec).val :=
  commission_sum_exact_within_context ⟨1000000000000, -8⟩ ⟨500, -4⟩ rfl
    (by decide) rfl (by decide)

/-- Database used to refute the claimed precedence waterfall: provider `P` is
active with a (perfectly legal, in-range) default commission rate of zero and
there is an active currency-only setting for USD at rate 0.07. -/
def zero_rate_db : CommissionDB :=
  { providers := [("P", ⟨0, true⟩)]
    settings := [⟨some "USD", none, 7/100, true, false⟩] }

/-- Counterexample to C5: with provider `P` active and no provider-level
settings, the claimed waterfall stops at level 3 (the provider's own default
rate field, here 0), but the source skips a zero default rate via Python
truthiness and returns the currency-only rate 0.07 instead. -/
theorem provider_zero_default_rate_skipped :
    get_commission_rate zero_rate_db (5/100) "USD" (some "P") = 7/100 ∧
    spec_resolve_rate zero_rate_db (5/100) "USD" (some "P") = 0 ∧
    (7/100 : ℚ) ≠ 0 := by
  refine ⟨?_, ?_, by norm_num⟩
  · rfl
  · rfl

/-- C5 (amended): the resolution waterfall, highest first: (1) provider+currency
active setting, (2) provider-only active setting, (3) the provider's own
default rate field when it is nonzero (a zero rate falls through), (4)
currency-only active setting, (5) global active setting, (6) the configured
default; the first match wins, and an absent or inactive provider id skips
levels 1–3. -/
theorem commission_rate_waterfall (db : CommissionDB) (d : ℚ) (cur : String) :
    (∀ pid p, lookup_active_provider db pid = some p →
      (∀ s, find_provider_currency_setting db pid cur = some s →
        get_commission_rate db d cur (some pid) = s.rate) ∧
      (find_provider_currency_setting db pid cur = none →
        (∀ s, find_provider_setting db pid = some s →
          get_commission_rate db d cur (some pid) = s.rate) ∧
        (find_provider_setting db pid = none →
          (p.commission_rate ≠ 0 →
            get_commission_rate db d cur (some pid) = p.commission_rate) ∧
          (p.commission_rate = 0 →
            get_commission_rate db d cur (some pid) =
              currency_or_global_rate db d cur)))) ∧
    (∀ pid, lookup_active_provider db pid = none →
      get_commission_rate db d cur (some pid) =
        currency_or_global_rate db d cur) ∧
    (get_commission_rate db d cur none = currency_or_global_rate db d cur) ∧
    (∀ s, find_currency_setting db cur = some s →
      currency_or_global_rate db d cur = s.rate) ∧
    (find_currency_setting db cur = none →
      (∀ s, find_global_setting db = some s →
        currency_or_global_rate db d cur = s.rate) ∧
      (find_global_setting db = none →
        currency_or_global_rate db d cur = d)) := by
  refine ⟨?_, ?_, ?_, ?_, ?_⟩
  · intro pid p hp
    refine ⟨?_, ?_⟩
    · intro s hs
      simp [get_commission_rate, hp, hs]
    · intro hnone
      refine ⟨?_, ?_⟩
      · intro s hs
        simp [get_commission_rate, hp, hnone, hs]
      · intro hnone2
        refine ⟨?_, ?_⟩
        · intro hnz
          simp [get_commission_rate, hp, hnone, hnone2, hnz]
        · intro hz
          simp [get_commission_rate, hp, hnone, hnone2, hz]
  · intro pid hp
    simp [get_commission_rate, hp]
  · rfl
  · intro s hs
    simp [currency_or_global_rate, hs]
  · intro hnone
    refine ⟨?_, ?_⟩
    · intro s hs
      simp [currency_or_global_rate, hnone, hs]
    · intro hg
      simp [currency_or_global_rate, hnone, hg]

/-- Database with active settings at every scope for USD and provider `P`. -/
def all_scopes_db : CommissionDB :=
  { providers := [("P", ⟨3/100, true⟩)]
    settings :=
      [⟨some "USD", some "P", 1/100, true, false⟩,
       ⟨none, some "P", 2/100, true, false⟩,
       ⟨some "USD", none, 4/100, true, false⟩,
       ⟨none, none, 6/100, true, true⟩] }

/-- Witness for C5: with settings at all scopes for USD+`P`, resolution
returns the provider+currency rate 0.01 and never a lower-precedence rate. -/
theorem commission_rate_waterfall_witness :
    get_commission_rate all_scopes_db (9/100) "USD" (some "P") = 1/100 := by
  have h := (commission_rate_waterfall all_scopes_db (9/100) "USD").1
    "P" ⟨3/100, true⟩ rfl
  have h2 := h.1 ⟨some "USD", some "P", 1/100, true, false⟩ rfl
  simpa using h2

lemma commission_1001_555_val :
    (calculate_commission ⟨1001, -2⟩ ⟨555, -4⟩).1.val = 555555 / 1000000 := by
  have hc : (calculate_commission ⟨1001, -2⟩ ⟨555, -4⟩).1 = ⟨555555, -6⟩ := by
    decide
  rw [hc]
  norm_num [Dec.val]

lemma commission_1001_555_not_rounded :
    ¬ rounded_to_places 2 (calculate_commission ⟨1001, -2⟩ ⟨555, -4⟩).1.val := by
  rw [commission_1001_555_val]
  rintro ⟨n, hn⟩
  norm_num at hn
  have h2 : (n : ℚ) * 2000 = 111111 := by
    field_simp at hn
    linarith
  have h3 : (n * 2000 : ℤ) = 111111 := by exact_mod_cast h2
  omega

/-- Counterexample to C6: for amount 10.01 and rate 0.0555 on a currency with
2 decimal places (the `Currency.decimal_places` default), the commission
amount returned by the source is 0.555555 — the product, untouched by any
currency rounding — which is not a value rounded to 2 decimal places. -/
theorem commission_not_rounded_cx :
    (⟨"USD", 2⟩ : Currency).decimal_places = 2 ∧
    (calculate_commission ⟨1001, -2⟩ ⟨555, -4⟩).1.val = 555555 / 1000000 ∧
    ¬ rounded_to_places 2 (calculate_commission ⟨1001, -2⟩ ⟨555, -4⟩).1.val :=
  ⟨rfl, commission_1001_555_val, commission_1001_555_not_rounded⟩

/-- C6 (amended): `calculate_commission` applies no currency-precision
rounding: the commission amount is `amount * rate` rounded only by the
`Decimal` context (28 significant digits, half-even) — in particular it is
the exact product of the operand values whenever the product's coefficient
fits in 28 digits — never to the currency's `decimal_places`; the net amount
is the context difference `amount - commission` rather than an independently
currency-rounded value; and there are inputs whose commission amount is not
representable at the currency's 2 decimal places. -/
theorem commission_no_currency_rounding :
    (∀ amount rate : Dec,
      calculate_commission amount rate =
        (dec_mul amount rate, dec_sub amount (dec_mul amount rate))) ∧
    (∀ amount rate : Dec, (amount.m * rate.m).natAbs < 10 ^ 28 →
      (calculate_commission amount rate).1.val = amount.val * rate.val) ∧
    (∃ amount rate : Dec,
      ¬ rounded_to_places 2 (calculate_commission amount rate).1.val) :=
  ⟨fun _ _ => rfl, fun amount rate h => dec_mul_val amount rate h,
   ⟨⟨1001, -2⟩, ⟨555, -4⟩, commission_1001_555_not_rounded⟩⟩

/-- Witness for C6: at amount 10.01 and rate 0.0555 the commission amount is
the exact product of the operand values. -/
theorem commission_no_currency_rounding_witness :
    (calculate_commission ⟨1001, -2⟩ ⟨555, -4⟩).1.val =
      (⟨1001, -2⟩ : Dec).val * (⟨555, -4⟩ : Dec).val :=
  commission_no_currency_rounding.2.1 ⟨1001, -2⟩ ⟨555, -4⟩ (by decide)

/-! ### Promo links (src/apps/payments/services/promo_service.py and the
`PromoLink` model in src/apps/payments/models.py). -/

/-- The state `PromoLinkService` reads and writes for one promo link: the
link's `is_used` flag and `expires_at`, and the owning transaction's
`status`. -/
structure PromoLinkState where
  is_used : Bool
  expires_at : ℤ
  tx_status : String
deriving DecidableEq, Repr

/-- `PromoLink.is_expired`: `timezone.now() > self.expires_at`. -/
def promo_is_expired (now : ℤ) (pl : PromoLinkState) : Bool :=
  pl.expires_at < now

/-- The `{'valid': ..., 'error_code': ...}` dict returned by
`PromoLinkService._validate_promo_link` (the human-readable message is not
modelled). -/
structure ValidationResult where
  valid : Bool
  error_code : Option String
deriving DecidableEq, Repr

/-- `PromoLinkService._validate_promo_link`: `ALREADY_USED` if `is_used`, then
`EXPIRED` if past expiry, then `INVALID_TRANSACTION` unless the owning
transaction's status is `'completed'` or `'pending'`. -/
def validate_promo_link (now : ℤ) (pl : PromoLinkState) : ValidationResult :=
  if pl.is_used then
    ⟨false, some "ALREADY_USED"⟩
  else if promo_is_expired now pl then
    ⟨false, some "EXPIRED"⟩
  else if !(pl.tx_status == "completed" || pl.tx_status == "pending") then
    ⟨false, some "INVALID_TRANSACTION"⟩
  else
    ⟨true, none⟩

/-- The recipient dict, reduced to which contact fields are present. -/
structure RecipientData where
  email : Bool
  telegram : Bool
  wallet : Bool
deriving DecidableEq, Repr

/-- `PromoLinkService._validate_recipient_data`: at least one contact method
or wallet. -/
def validate_recipient_data (rd : RecipientData) : Bool :=
  rd.email || rd.telegram || rd.wallet

/-- The `{'success': ..., 'error_code': ...}` claim-result dict. -/
structure ClaimResult where
  success : Bool
  error_code : Option String
deriving DecidableEq, Repr

/-- `PromoLinkService._process_claim`: recipient validation followed by
`_simulate_payout`, which returns success on every branch. -/
def process_claim (rd : RecipientData) : ClaimResult :=
  if validate_recipient_data rd then ⟨true, none⟩
  else ⟨false, some "INVALID_RECIPIENT_DATA"⟩

/-- `PromoLink.mark_as_used`: sets `is_used = True` (plus recipient/audit
fields not modelled) and saves. -/
def mark_as_used (pl : PromoLinkState) : PromoLinkState :=
  { pl with is_used := true }

/-- The success-path write of `claim_promo_link`: `mark_as_used` followed by
the transaction-status rewrite `'completed' → 'claimed'`; the `save()` calls
overwrite the stored row with the snapshot's fields. -/
def claim_write (snapshot : PromoLinkState) : PromoLinkState :=
  if (mark_as_used snapshot).tx_status == "completed" then
    { mark_as_used snapshot with tx_status := "claimed" }
  else mark_as_used snapshot

/-- The body of `PromoLinkService.claim_promo_link` run against a `snapshot`
of the row (the object fetched by `PromoLink.objects.get`, on which all checks
run) while `shared` is the stored row at commit time.  There is no
re-validation and no compare-and-set between validation and the write. -/
def claim_commit (now : ℤ) (rd : RecipientData)
    (snapshot shared : PromoLinkState) : ClaimResult × PromoLinkState :=
  if (validate_promo_link now snapshot).valid then
    if (process_claim rd).success then
      (process_claim rd, claim_write snapshot)
    else (process_claim rd, shared)
  else (⟨false, (validate_promo_link now snapshot).error_code⟩, shared)

lemma claim_write_is_used (pl : PromoLinkState) :
    (claim_write pl).is_used = true := by
  unfold claim_write mark_as_used
  split <;> rfl


/-- `PromoLinkService.claim_promo_link` executed alone: the snapshot read by
`objects.get` is the current stored row. -/
def claim_promo_link (now : ℤ) (rd : RecipientData) (pl : PromoLinkState) :
    ClaimResult × PromoLinkState :=
  claim_commit now rd pl pl

lemma claim_on_used_link (t : ℤ) (rd : RecipientData) (w : PromoLinkState)
    (hw : w.is_used = true) :
    claim_promo_link t rd w = (⟨false, some "ALREADY_USED"⟩, w) := by
  have hval : validate_promo_link t w = ⟨false, some "ALREADY_USED"⟩ := by
    unfold validate_promo_link
    rw [hw]
    simp
  simp only [claim_promo_link, claim_commit]
  rw [hval]
  simp

/-- Two overlapping executions of `claim_promo_link` on the same code under
the schedule "A reads, B reads, A finishes, B finishes": both `objects.get`
calls return the initial row, then each execution validates its own snapshot
and commits. -/
def two_interleaved_claims (now : ℤ) (rd : RecipientData)
    (pl0 : PromoLinkState) : ClaimResult × ClaimResult × PromoLinkState :=
  let snapA := pl0
  let snapB := pl0
  let ra := claim_commit now rd snapA pl0
  let rb := claim_commit now rd snapB ra.2
  (ra.1, rb.1, rb.2)

/-- Counterexample to C1: a valid unused link claimed by two interleaved
executions (both reads before either write) yields success for both callers —
the flip is a plain read-validate-write, not a compare-and-set. -/
theorem promo_claim_concurrent_double_success :
    (two_interleaved_claims 50 ⟨true, false, false⟩
      ⟨false, 100, "completed"⟩).1.success = true ∧
    (two_interleaved_claims 50 ⟨true, false, false⟩
      ⟨false, 100, "completed"⟩).2.1.success = true := by
  constructor <;> rfl

/-- C1 (amended): for sequential claims the at-most-once property holds: if a
claim on a code succeeds, the stored link has `is_used = true` and any later
claim on the same code fails with `ALREADY_USED`, leaving the row unchanged;
but the `is_used` flip is not a compare-and-set, so two claim executions
whose reads interleave before the first write can both return success. -/
theorem promo_claim_sequential_at_most_once (now now' : ℤ)
    (rd rd' : RecipientData) (pl : PromoLinkState)
    (h : (claim_promo_link now rd pl).1.success = true) :
    (claim_promo_link now rd pl).2.is_used = true ∧
    (claim_promo_link now' rd' (claim_promo_link now rd pl).2).1 =
      ⟨false, some "ALREADY_USED"⟩ ∧
    (claim_promo_link now' rd' (claim_promo_link now rd pl).2).2 =
      (claim_promo_link now rd pl).2 ∧
    (two_interleaved_claims now rd pl).1.success = true ∧
    (two_interleaved_claims now rd pl).2.1.success = true := by
  have hv : (validate_promo_link now pl).valid = true := by
    by_contra hv
    simp only [claim_promo_link, claim_commit] at h
    rw [if_neg hv] at h
    simp at h
  have hr : (process_claim rd).success = true := by
    by_contra hr
    simp only [claim_promo_link, claim_commit] at h
    rw [if_pos hv, if_neg hr] at h
    exact hr h
  have heq : claim_promo_link now rd pl = (process_claim rd, claim_write pl) := by
    simp only [claim_promo_link, claim_commit]
    rw [if_pos hv, if_pos hr]
  have hused : (claim_promo_link now rd pl).2.is_used = true := by
    rw [heq]
    exact claim_write_is_used pl
  refine ⟨hused, ?_, ?_, ?_, ?_⟩
  · rw [claim_on_used_link now' rd' _ hused]
  · rw [claim_on_used_link now' rd' _ hused]
  · simp only [two_interleaved_claims, claim_commit]
    rw [if_pos hv, if_pos hr]
    exact hr
  · simp only [two_interleaved_claims, claim_commit]
    rw [if_pos hv, if_pos hr]
    exact hr

/-- Witness for C1: a concrete successful claim followed by a second claim
that fails with `ALREADY_USED`. -/
theorem promo_claim_sequential_at_most_once_witness :
    (claim_promo_link 50 ⟨true, false, false⟩ ⟨false, 100, "completed"⟩).2.is_used
        = true ∧
    (claim_promo_link 60 ⟨false, false, true⟩
      (claim_promo_link 50 ⟨true, false, false⟩ ⟨false, 100, "completed"⟩).2).1 =
      ⟨false, some "ALREADY_USED"⟩ := by
  have h := promo_claim_sequential_at_most_once 50 60
    ⟨true, false, false⟩ ⟨false, false, true⟩ ⟨false, 100, "completed"⟩ rfl
  exact ⟨h.1, h.2.1⟩

/-- Modelled from the spec: the claimable transaction state per the lifecycle
(§4.1/§4.4) is `ready_for_claim`. -/
def spec_claimable (status : String) : Prop :=
  status = "ready_for_claim"

/-- Counterexample to C7: an unused, unexpired promo link whose owning
transaction is in the spec's claimable state `ready_for_claim` is rejected by
the source validation with `INVALID_TRANSACTION` — the code's claimable set
is `{'completed', 'pending'}`, not `{'ready_for_claim'}`. -/
theorem ready_for_claim_rejected :
    spec_claimable (⟨false, 100, "ready_for_claim"⟩ : PromoLinkState).tx_status ∧
    (⟨false, 100, "ready_for_claim"⟩ : PromoLinkState).is_used = false ∧
    promo_is_expired 50 ⟨false, 100, "ready_for_claim"⟩ = false ∧
    validate_promo_link 50 ⟨false, 100, "ready_for_claim"⟩ =
      ⟨false, some "INVALID_TRANSACTION"⟩ := by
  exact ⟨rfl, rfl, rfl, rfl⟩

/-- C7 (amended): validation fails with `ALREADY_USED` if `is_used` is set,
else with `EXPIRED` if past `expires_at`, else with `INVALID_TRANSACTION`
unless the owning transaction's status is `'completed'` or `'pending'` (the
code's claimable set — not `ready_for_claim`); and a claim attempt on an
unused, expired link returns the `EXPIRED` failure and leaves the stored row,
in particular `is_used`, unchanged. -/
theorem validate_promo_link_cases (now : ℤ) (rd : RecipientData)
    (pl : PromoLinkState) :
    (pl.is_used = true →
      validate_promo_link now pl = ⟨false, some "ALREADY_USED"⟩) ∧
    (pl.is_used = false → promo_is_expired now pl = true →
      validate_promo_link now pl = ⟨false, some "EXPIRED"⟩ ∧
      claim_promo_link now rd pl = (⟨false, some "EXPIRED"⟩, pl) ∧
      (claim_promo_link now rd pl).2.is_used = false) ∧
    (pl.is_used = false → promo_is_expired now pl = false →
      (pl.tx_status ≠ "completed" → pl.tx_status ≠ "pending" →
        validate_promo_link now pl = ⟨false, some "INVALID_TRANSACTION"⟩) ∧
      ((pl.tx_status = "completed" ∨ pl.tx_status = "pending") →
        validate_promo_link now pl = ⟨true, none⟩)) := by
  refine ⟨?_, ?_, ?_⟩
  · intro hu
    simp [validate_promo_link, hu]
  · intro hu he
    have hv : validate_promo_link now pl = ⟨false, some "EXPIRED"⟩ := by
      simp [validate_promo_link, hu, he]
    refine ⟨hv, ?_, ?_⟩
    · unfold claim_promo_link claim_commit
      rw [hv]
      simp
    · unfold claim_promo_link claim_commit
      rw [hv]
      simpa using hu
  · intro hu he
    constructor
    · intro h1 h2
      simp [validate_promo_link, hu, he, h1, h2]
    · intro h
      rcases h with h | h <;> simp [validate_promo_link, hu, he, h]

/-- Witness for C7: a concrete expired, unused link is rejected with
`EXPIRED` and its `is_used` flag stays `false`. -/
theorem validate_promo_link_cases_witness :
    validate_promo_link 200 ⟨true, 100, "completed"⟩ =
      ⟨false, some "ALREADY_USED"⟩ ∧
    claim_promo_link 200 ⟨true, false, false⟩ ⟨false, 100, "completed"⟩ =
      (⟨false, some "EXPIRED"⟩, ⟨false, 100, "completed"⟩) := by
  constructor
  · exact (validate_promo_link_cases 200 ⟨true, false, false⟩
      ⟨true, 100, "completed"⟩).1 rfl
  · exact ((validate_promo_link_cases 200 ⟨true, false, false⟩
      ⟨false, 100, "completed"⟩).2.1 rfl rfl).2.1

/-- Python's `str.replace`: the replacement string is a required positional
argument; calling `s.replace(old)` raises
`TypeError: replace expected at least 2 arguments, got 1`. -/
def py_str_replace (s old : String) : Option String → Except String String
  | some new => Except.ok (s.replace old new)
  | none => Except.error "TypeError: replace expected at least 2 arguments, got 1"

def ascii_uppercase : String := "ABCDEFGHIJKLMNOPQRSTUVWXYZ"

def ascii_digits : String := "0123456789"

/-- The alphabet computation in `PromoLinkService._generate_promo_code`:
`chars = string.ascii_uppercase + string.digits` followed by
`chars.replace('0', '').replace('O', '').replace('1', '').replace('I')` —
the final call passes no replacement argument. -/
def generate_promo_code_chars : Except String String := do
  let chars := ascii_uppercase ++ ascii_digits
  let chars ← py_str_replace chars "0" (some "")
  let chars ← py_str_replace chars "O" (some "")
  let chars ← py_str_replace chars "1" (some "")
  py_str_replace chars "I" none

/-- `PromoLinkService._generate_promo_code`: draw `code_length` characters
from the alphabet (the draw itself is modelled by an arbitrary choice
function, since `secrets.choice` is non-deterministic). -/
def generate_promo_code (code_length : ℕ) (choice : ℕ → String → Char) :
    Except String String := do
  let chars ← generate_promo_code_chars
  pure (String.mk ((List.range code_length).map (fun i => choice i chars)))

/-- C9 (code bug): every call to the promo-code generator raises `TypeError`,
because the final `replace('I')` omits the required replacement string; no
code is ever generated and `'I'` is never removed from the alphabet.  The
surrounding code (three well-formed `replace` calls removing `0`, `O`, `1`)
and the spec agree that the intent is to strip all four ambiguous characters. -/
theorem generate_promo_code_type_error (code_length : ℕ)
    (choice : ℕ → String → Char) :
    generate_promo_code code_length choice =
      Except.error "TypeError: replace expected at least 2 arguments, got 1" := by
  rfl

/-! ### Transaction status handling
(`PaymentService.process_fiat_payment` in
src/apps/payments/services/payment_service.py, `Transaction.STATUS_CHOICES`
in src/apps/payments/models.py). -/

/-- The status values declared on `Transaction.STATUS_CHOICES`. -/
def STATUS_CHOICES : List String :=
  ["pending", "payment_processing", "payment_confirmed", "escrowed",
   "ready_for_claim", "claim_processing", "completed", "expired",
   "cancelled", "failed", "refunded"]

/-- A `Transaction` row, restricted to the fields `process_fiat_payment`
touches. -/
structure Tx where
  status : String
  completed_at : Option ℤ
  payment_reference : String
deriving DecidableEq, Repr

/-- Outcome of `process_fiat_payment`: `error` is the message of the raised
`ValueError` (if any), `tx` the stored row afterwards, and `writes` the list
of `(old_status, new_status)` pairs saved along the way. -/
structure FiatResult where
  error : Option String
  tx : Tx
  writes : List (String × String)
deriving DecidableEq, Repr

/-- `PaymentService.process_fiat_payment`: raises unless the status is
`'pending'`; then saves status `'processing'`; for the `'stripe'` method the
simulated `_process_stripe_payment` always succeeds, so the status is then
saved as `'completed'` with `completed_at` and a payment reference; any other
method raises after the `'processing'` write has already been saved. -/
def process_fiat_payment (now : ℤ) (method : String) (t : Tx) : FiatResult :=
  if t.status != "pending" then
    ⟨some "Transaction is not in pending status", t, []⟩
  else if method == "stripe" then
    ⟨none,
     { status := "completed", completed_at := some now,
       payment_reference := "stripe_payment" },
     [("pending", "processing"), ("processing", "completed")]⟩
  else
    ⟨some "Unsupported payment method",
     { t with status := "processing" },
     [("pending", "processing")]⟩

/-- Modelled from the spec: terminal transaction states (§4.1). -/
def spec_terminal (s : String) : Bool :=
  s ∈ ["completed", "expired", "cancelled", "failed", "refunded"]

/-- Modelled from the spec: the allowed-transition table exactly as the claim
states it — the named forward edges plus the side branches
expired/cancelled/failed/refunded from every non-terminal state. -/
def spec_allowed_transition (src tgt : String) : Bool :=
  (src == "pending" && tgt ∈ ["payment_processing", "expired", "cancelled"]) ||
  (src == "payment_processing" && tgt ∈ ["payment_confirmed", "failed"]) ||
  (src == "payment_confirmed" && tgt == "escrowed") ||
  (src == "escrowed" && tgt == "ready_for_claim") ||
  (src == "ready_for_claim" && tgt ∈ ["claim_processing", "expired"]) ||
  (src == "claim_processing" &&
    tgt ∈ ["completed", "ready_for_claim", "refunded"]) ||
  (!spec_terminal src && tgt ∈ ["expired", "cancelled", "failed", "refunded"])

/-- Counterexample to C3: on a pending transaction, `process_fiat_payment`
saves the status change `pending → processing` — a transition outside the
claimed table (`processing` is not even among `STATUS_CHOICES`) — without any
`StateConflictError`; and re-submitting the operation on a transaction already
`completed` raises an error instead of being a no-op success. -/
theorem transition_table_not_enforced :
    (process_fiat_payment 0 "stripe" ⟨"pending", none, ""⟩).error = none ∧
    ("pending", "processing") ∈
      (process_fiat_payment 0 "stripe" ⟨"pending", none, ""⟩).writes ∧
    spec_allowed_transition "pending" "processing" = false ∧
    "processing" ∉ STATUS_CHOICES ∧
    (process_fiat_payment 0 "stripe" ⟨"completed", none, ""⟩).error ≠ none := by
  refine ⟨rfl, by decide, by decide, by decide, by decide⟩

/-- C3 (amended): no transition table or `StateConflictError` exists; the only
guard in `process_fiat_payment` is `status == 'pending'`: any other status —
including a re-submission when already `completed`, which the claim says is a
no-op success — raises an error leaving the row untouched; on a pending
transaction with the stripe method it saves `'processing'` (a value outside
the declared `STATUS_CHOICES`) and then `'completed'`; and a successful
`claim_promo_link` rewrites a `'completed'` transaction to `'claimed'` (also
outside `STATUS_CHOICES`). -/
theorem process_fiat_payment_behavior (now : ℤ) (method : String) (t : Tx) :
    (t.status ≠ "pending" →
      process_fiat_payment now method t =
        ⟨some "Transaction is not in pending status", t, []⟩) ∧
    (t.status = "pending" → method = "stripe" →
      (process_fiat_payment now method t).error = none ∧
      (process_fiat_payment now method t).tx.status = "completed" ∧
      (process_fiat_payment now method t).writes =
        [("pending", "processing"), ("processing", "completed")]) ∧
    "processing" ∉ STATUS_CHOICES ∧
    "claimed" ∉ STATUS_CHOICES ∧
    (∀ (now' : ℤ) (rd : RecipientData) (pl : PromoLinkState),
      pl.tx_status = "completed" →
      (claim_promo_link now' rd pl).1.success = true →
      (claim_promo_link now' rd pl).2.tx_status = "claimed") := by
  refine ⟨?_, ?_, by decide, by decide, ?_⟩
  · intro hs
    simp [process_fiat_payment, hs]
  · intro hs hm
    simp [process_fiat_payment, hs, hm]
  · intro now' rd pl hst hsucc
    simp only [claim_promo_link, claim_commit] at hsucc ⊢
    by_cases hvv : (validate_promo_link now' pl).valid = true
    · rw [if_pos hvv] at hsucc ⊢
      by_cases hrr : (process_claim rd).success = true
      · rw [if_pos hrr]
        simp [claim_write, mark_as_used, hst]
      · rw [if_neg hrr] at hsucc
        exact absurd hsucc hrr
    · rw [if_neg hvv] at hsucc
      simp at hsucc

/-- Witness for C3: concrete runs of `process_fiat_payment` and a concrete
claim hitting each hypothesis. -/
theorem process_fiat_payment_behavior_witness :
    process_fiat_payment 7 "stripe" ⟨"completed", none, ""⟩ =
      ⟨some "Transaction is not in pending status", ⟨"completed", none, ""⟩, []⟩ ∧
    (process_fiat_payment 7 "stripe" ⟨"pending", none, ""⟩).tx.status
      = "completed" ∧
    (claim_promo_link 50 ⟨true, false, false⟩
      ⟨false, 100, "completed"⟩).2.tx_status = "claimed" := by
  refine ⟨?_, ?_, ?_⟩
  · exact (process_fiat_payment_behavior 7 "stripe" ⟨"completed", none, ""⟩).1
      (by decide)
  · exact ((process_fiat_payment_behavior 7 "stripe"
      ⟨"pending", none, ""⟩).2.1 rfl rfl).2.1
  · exact (process_fiat_payment_behavior 7 "stripe"
      ⟨"pending", none, ""⟩).2.2.2.2 50 ⟨true, false, false⟩
      ⟨false, 100, "completed"⟩ rfl rfl

/-! ### Webhook delivery retries (`ProviderWebhook.mark_failed` in
src/apps/providers/models.py, the due-item filter in `send_provider_webhooks`
in src/apps/payments/tasks.py). -/

/-- `retry_delays = [300, 900, 1800, 3600, 7200]` seconds — 5min, 15min,
30min, 1hr, 2hr. -/
def retry_delays : List ℤ := [300, 900, 1800, 3600, 7200]

/-- A `ProviderWebhook` row, restricted to the delivery-tracking fields. -/
structure ProviderWebhook where
  delivered : Bool
  delivery_attempts : ℕ
  last_attempt : Option ℤ
  next_retry : Option ℤ
  error_message : String
deriving DecidableEq, Repr

/-- `ProviderWebhook.mark_failed`: increments `delivery_attempts`, and while
the incremented count is within the delay table schedules
`next_retry = now + retry_delays[delivery_attempts - 1]`. -/
def mark_failed (now : ℤ) (msg : String) (w : ProviderWebhook) :
    ProviderWebhook :=
  { w with
    error_message := msg
    delivery_attempts := w.delivery_attempts + 1
    last_attempt := some now
    next_retry :=
      if w.delivery_attempts + 1 ≤ retry_delays.length then
        some (now + retry_delays.getD w.delivery_attempts 0)
      else w.next_retry }

/-- The due-item filter of `send_provider_webhooks`:
`delivered=False, delivery_attempts__lt=5, next_retry__lte=now` (a SQL
comparison, so a NULL `next_retry` never matches). -/
def webhook_due (now : ℤ) (w : ProviderWebhook) : Bool :=
  !w.delivered && w.delivery_attempts < 5 &&
    (match w.next_retry with
      | some t => t ≤ now
      | none => false)

/-- C10: each failure schedules the next retry at the fixed backoff delay
`{5m, 15m, 30m, 1h, 2h}` indexed by the prior delivery-attempt count, without
marking the item delivered; and once 5 attempts have been recorded the item is
never due again — it stays undelivered permanently. -/
theorem webhook_retry_schedule :
    retry_delays = [5*60, 15*60, 30*60, 60*60, 120*60] ∧
    (∀ (w : ProviderWebhook) (now : ℤ) (msg : String),
      w.delivery_attempts < 5 →
      (mark_failed now msg w).next_retry =
        some (now + retry_delays.getD w.delivery_attempts 0) ∧
      (mark_failed now msg w).delivery_attempts = w.delivery_attempts + 1 ∧
      (mark_failed now msg w).delivered = w.delivered) ∧
    (∀ (w : ProviderWebhook) (t : ℤ),
      5 ≤ w.delivery_attempts → webhook_due t w = false) ∧
    (∀ (w : ProviderWebhook) (now : ℤ) (msg : String),
      4 ≤ w.delivery_attempts →
      ∀ t : ℤ, webhook_due t (mark_failed now msg w) = false) := by
  refine ⟨by decide, ?_, ?_, ?_⟩
  · intro w now msg hlt
    refine ⟨?_, rfl, rfl⟩
    simp only [mark_failed]
    rw [if_pos (by simp [retry_delays]; omega)]
  · intro w t h5
    simp only [webhook_due]
    have : ¬ w.delivery_attempts < 5 := by omega
    simp [this]
  · intro w now msg h4 t
    simp only [webhook_due, mark_failed]
    have : ¬ w.delivery_attempts + 1 < 5 := by omega
    simp [this]

/-- Witness for C10: a concrete webhook failing for the fifth time gets
`next_retry` 2 hours out and is never due again. -/
theorem webhook_retry_schedule_witness :
    (mark_failed 1000 "HTTP 500" ⟨false, 4, some 900, some 990, ""⟩).next_retry
      = some (1000 + 7200) ∧
    webhook_due 999999 (mark_failed 1000 "HTTP 500"
      ⟨false, 4, some 900, some 990, ""⟩) = false := by
  constructor
  · have h := (webhook_retry_schedule.2.1 ⟨false, 4, some 900, some 990, ""⟩
      1000 "HTTP 500" (by decide)).1
    simpa [retry_delays] using h
  · exact webhook_retry_schedule.2.2.2 ⟨false, 4, some 900, some 990, ""⟩
      1000 "HTTP 500" (by decide) 999999

end UCPG
